import Mathlib

/-!
Shallow embedding of the TwBot rating-tracking bot (src/BotTwitch.py).

The bot maintains a JSON-file-backed history of Elo snapshots, answers a
cooldown-gated chat command with the current rating and a daily delta,
classifies remote match records as win/loss/unknown, and resets the
history once a day at 04:00 local time.

Modelling conventions:
- The backing file is `Option (List EloRecord)`: `none` means the file is
  absent, `some h` means the file holds the JSON array `h`.
- Timestamps are stored as opaque strings (the code stores
  `datetime.isoformat()` output and only ever compares the parsed date
  against today).  The parsing step `fromisoformat(ts).date()` is
  abstracted as a function `dateOf : String → Int` and "today" as an
  `Int` day index; theorems quantify over both.
- Wall-clock instants used by the cooldown logic (`time.time()`) are
  rationals.
- Remote HTTP interactions are embedded as oracle values describing the
  response (status code, decoded body or decode failure, or a network
  error); Python exception paths all end in a `catch` that returns a
  default value, so every embedded function is total.
-/

namespace BotTwitch

/-- One element of the persisted JSON array: `{"elo": ..., "timestamp": ...}`. -/
structure EloRecord where
  elo : Int
  timestamp : String
deriving DecidableEq, Repr, Inhabited

/-- Embedding of `save_elo_record` (src/BotTwitch.py:211): read the history
(absent file means empty history), append one record carrying the current
instant, write everything back. -/
def save_elo_record (now_ts : String) (elo : Int)
    (file : Option (List EloRecord)) : Option (List EloRecord) :=
  some ((file.getD []) ++ [{ elo := elo, timestamp := now_ts }])

/-- Embedding of `reset_daily_stats` (src/BotTwitch.py:109): if the file is
absent, do nothing; otherwise replace the whole history with one record
carrying the last known elo (0 when the history is empty) and the current
instant. -/
def reset_daily_stats (now_ts : String)
    (file : Option (List EloRecord)) : Option (List EloRecord) :=
  match file with
  | none => none
  | some history =>
      let last_elo : Int :=
        match history.getLast? with
        | some e => e.elo
        | none => 0
      some [{ elo := last_elo, timestamp := now_ts }]

/-- Embedding of `get_daily_elo_change` (src/BotTwitch.py:235): keep only
today's records, pop the leading zero-elo records, and return
`latest − first` when at least two records remain, else 0. -/
def get_daily_elo_change (dateOf : String → Int) (today : Int)
    (file : Option (List EloRecord)) : Int :=
  match file with
  | none => 0
  | some history =>
      if history.isEmpty then 0
      else
        let daily_records := history.filter (fun e => dateOf e.timestamp == today)
        let daily_records := daily_records.dropWhile (fun e => e.elo == 0)
        if daily_records.length < 2 then 0
        else
          let first_elo := (daily_records.headD default).elo
          let latest_elo := (daily_records.getLastD default).elo
          latest_elo - first_elo

/-- The daily delta exactly as the claim words it: `latest − first` over
today's records after excluding EVERY record whose elo is the sentinel 0
(not just the leading run), 0 when fewer than two qualify.  Written from
the spec's words, to be compared with `get_daily_elo_change`. -/
def daily_delta_claimed (dateOf : String → Int) (today : Int)
    (file : Option (List EloRecord)) : Int :=
  match file with
  | none => 0
  | some history =>
      let qualifying := (history.filter (fun e => dateOf e.timestamp == today)).filter
        (fun e => ¬ (e.elo == 0))
      if qualifying.length < 2 then 0
      else (qualifying.getLastD default).elo - (qualifying.headD default).elo

/-- The records `get_daily_elo_change` actually diffs: today's records
with the leading zero-elo run removed. -/
def qualifying_records (dateOf : String → Int) (today : Int)
    (history : List EloRecord) : List EloRecord :=
  (history.filter (fun e => dateOf e.timestamp == today)).dropWhile
    (fun e => e.elo == 0)

/-! ## Persisted JSON layout (src/BotTwitch.py:211-233, 242-243) -/

/-- A JSON value, as produced by `json.dump` / consumed by `json.load`. -/
inductive JValue where
  | jnum (n : Int)
  | jstr (s : String)
  | jarr (xs : List JValue)
  | jobj (fields : List (String × JValue))

/-- The persisted form of one snapshot: `{"elo": <int>, "timestamp": <string>}`
(src/BotTwitch.py:214). -/
def encode_record (r : EloRecord) : JValue :=
  .jobj [("elo", .jnum r.elo), ("timestamp", .jstr r.timestamp)]

/-- `json.dump(history, ...)`: the file holds one JSON array, oldest first. -/
def encode_history (h : List EloRecord) : JValue :=
  .jarr (h.map encode_record)

/-- The reader's access pattern `entry['elo']`, `entry['timestamp']`
(src/BotTwitch.py:251-252, 256-264): look the two keys up in the object,
requiring an integer elo and a string timestamp. -/
def decode_record (v : JValue) : Option EloRecord :=
  match v with
  | .jobj fields =>
      match fields.lookup "elo", fields.lookup "timestamp" with
      | some (.jnum n), some (.jstr s) => some { elo := n, timestamp := s }
      | _, _ => none
  | _ => none

/-- Element-wise decoding of the JSON array, in order; any malformed
element fails the whole read (the Python reader raises on the first bad
access, caught by the caller). -/
def decode_records : List JValue → Option (List EloRecord)
  | [] => some []
  | v :: vs =>
      match decode_record v, decode_records vs with
      | some r, some rs => some (r :: rs)
      | _, _ => none

/-- `json.load(f)` of the history file: the file must hold one array. -/
def decode_history (v : JValue) : Option (List EloRecord) :=
  match v with
  | .jarr xs => decode_records xs
  | _ => none

/-! ## Match-outcome classification (src/BotTwitch.py:312-382) -/

/-- One remote match record, as consumed by `_analyze_match`: a status
string, the `teams` mapping (faction key → roster of player ids, in
insertion order), and the optional `results.winner` faction. -/
structure MatchRecord where
  status : String
  teams : List (String × List String)
  winner : Option String
deriving DecidableEq, Repr

/-- Python truthiness of an optional string: `None` and `""` are falsy. -/
def truthyStr (s : Option String) : Bool :=
  match s with
  | none => false
  | some s => s != ""

/-- The roster scan of `_analyze_match` (src/BotTwitch.py:361-368):
`player_team` starts as `None`; for each faction, if the player id is in
the roster, `player_team` becomes that faction; the outer loop stops only
once `player_team` is truthy (a non-empty faction name). -/
def scan_teams (player_id : String) :
    List (String × List String) → Option String → Option String
  | [], acc => acc
  | (faction, team) :: rest, acc =>
      let acc := if team.contains player_id then some faction else acc
      if truthyStr acc then acc else scan_teams player_id rest acc

/-- The faction the player belongs to, as the spec words it: the first
team whose roster contains the player's id. -/
def find_faction (player_id : String) (teams : List (String × List String)) :
    Option String :=
  (teams.find? (fun t => t.2.contains player_id)).map (fun t => t.1)

/-- Embedding of `_analyze_match` (src/BotTwitch.py:352): "unknown" unless
the match is finished, the player is found under a truthy faction, and a
truthy winner is declared; then "win" iff the player's faction equals the
winner, else "loss". -/
def analyze_match (m : MatchRecord) (player_id : String) : String :=
  if m.status != "finished" then "unknown"
  else
    let player_team := scan_teams player_id m.teams none
    if ¬ truthyStr player_team then "unknown"
    else if ¬ truthyStr m.winner then "unknown"
    else if player_team == m.winner then "win" else "loss"

/-- The counting loop of `_get_daily_matches` (src/BotTwitch.py:334-343):
wins incremented on "win", losses on "loss", nothing otherwise. -/
def count_matches (player_id : String) (ms : List MatchRecord) : Nat × Nat :=
  ms.foldl
    (fun wl m =>
      let result := analyze_match m player_id
      if result == "win" then (wl.1 + 1, wl.2)
      else if result == "loss" then (wl.1, wl.2 + 1)
      else wl)
    (0, 0)

/-! ## Remote stats fetch (src/BotTwitch.py:274-310, 427-429) -/

/-- The result dictionary `{'Elo': ..., 'Win': ..., 'Lose': ...}`. -/
structure FStats where
  Elo : Int
  Win : Nat
  Lose : Nat
deriving DecidableEq, Repr

/-- `_get_empty_stats` (src/BotTwitch.py:427). -/
def get_empty_stats : FStats := { Elo := 0, Win := 0, Lose := 0 }

/-- The decoded body of the player-resolution response: the optional
`player_id` field and the optional `games.cs2.faceit_elo` field. -/
structure PlayerBody where
  player_id : Option String
  faceit_elo : Option Int
deriving DecidableEq, Repr

/-- Outcome of one HTTP request, as seen by the Python caller:
`netErr` is a raised `requests.RequestException` (timeout, connection
failure); otherwise a status code together with the decoded JSON body, or
`none` when `response.json()` raises (decode failure). -/
inductive HttpOutcome (α : Type) where
  | netErr
  | reply (status : Nat) (body : Option α)
deriving DecidableEq, Repr

/-- Embedding of `_get_daily_matches` (src/BotTwitch.py:312-350): `(0, 0)`
on network error, non-200 status or decode failure, else the win/loss
count over the returned match list. -/
def get_daily_matches (player_id : String)
    (resp : HttpOutcome (List MatchRecord)) : Nat × Nat :=
  match resp with
  | .netErr => (0, 0)
  | .reply status body =>
      if status ≠ 200 then (0, 0)
      else
        match body with
        | none => (0, 0)
        | some ms => count_matches player_id ms

/-- Embedding of `get_faceit_stats` (src/BotTwitch.py:274-310): empty stats
on any network error, non-200 status, decode failure or falsy `player_id`;
otherwise the elo (default 0 when the field is missing) together with the
daily match counts. -/
def get_faceit_stats (presp : HttpOutcome PlayerBody)
    (mresp : HttpOutcome (List MatchRecord)) : FStats :=
  match presp with
  | .netErr => get_empty_stats
  | .reply status body =>
      if status ≠ 200 then get_empty_stats
      else
        match body with
        | none => get_empty_stats
        | some player_data =>
            if ¬ truthyStr player_data.player_id then get_empty_stats
            else
              let elo := player_data.faceit_elo.getD 0
              let wl := get_daily_matches (player_data.player_id.getD "") mresp
              { Elo := elo, Win := wl.1, Lose := wl.2 }

/-! ## Command dispatch: cooldown and single-flight gates
(src/BotTwitch.py:28-32, 444-463) -/

/-- The dispatcher's mutable state: `last_elo_time` (set on completion of a
background task, 0 at startup) and the number of background tasks in
flight (`pending_elo_thread` alive-ness; 0 at startup). -/
structure DispatchState where
  last_elo_time : ℚ
  inFlight : Nat
deriving DecidableEq, Repr

/-- The dispatcher's state at startup (src/BotTwitch.py:31-32). -/
def initDispatchState : DispatchState := { last_elo_time := 0, inFlight := 0 }

/-- The cooldown threshold `elo_cooldown = 5` seconds (src/BotTwitch.py:30). -/
def elo_cooldown : ℚ := 5

/-- Embedding of the gate logic of `_handle_elo_command`
(src/BotTwitch.py:444-463) at wall-clock time `t`: drop (spawn nothing,
change nothing) when the cooldown has not elapsed since `last_elo_time`,
drop when a background task is still alive, otherwise spawn one background
task.  Returns whether a task was spawned, with the new state. -/
def handle_elo_command (t : ℚ) (s : DispatchState) : Bool × DispatchState :=
  if t - s.last_elo_time < elo_cooldown then (false, s)
  else if s.inFlight ≠ 0 then (false, s)
  else (true, { s with inFlight := s.inFlight + 1 })

/-- A background task finishing at wall-clock time `t`: the task's last
statement sets `last_elo_time := time.time()` (src/BotTwitch.py:516) and
the thread stops being alive. -/
def complete_elo (t : ℚ) (s : DispatchState) : DispatchState :=
  { last_elo_time := t, inFlight := s.inFlight - 1 }

/-- Events observable by the dispatcher: a `!elo` dispatch arriving at
time `t`, or an in-flight background task completing at time `t`. -/
inductive DispatchEvent where
  | dispatch (t : ℚ)
  | complete (t : ℚ)

/-- One step of the dispatcher's state machine. -/
def dispatch_step (s : DispatchState) (e : DispatchEvent) : DispatchState :=
  match e with
  | .dispatch t => (handle_elo_command t s).2
  | .complete t => complete_elo t s

/-- The dispatcher state after a sequence of events from startup. -/
def dispatch_run (es : List DispatchEvent) : DispatchState :=
  es.foldl dispatch_step initDispatchState

/-! ## The background task `_process_elo` (src/BotTwitch.py:496-516)

Python keeps the later of the two `_process_elo` definitions
(src/BotTwitch.py:496); both perform the same statements in the same
order.  The straight-line statement order is recorded as an explicit
event trace. -/

/-- The observable actions of the background task, in program order. -/
inductive ProcEvent where
  | fetchStats
  | computeDelta (value : Int)
  | persistRec (elo : Int)
  | sendReply (msg : String)
  | updateTime (t : ℚ)
deriving DecidableEq, Repr

/-- The reply line of `_process_elo` (src/BotTwitch.py:504-511): the delta
rendered with an explicit plus sign when positive. -/
def format_reply (username : String) (stats : FStats) (daily_change : Int) :
    String :=
  let change_str :=
    if daily_change > 0 then "+" ++ toString daily_change
    else toString daily_change
  "@" ++ username ++ " → Elo: " ++ toString stats.Elo ++
    " | Win: " ++ toString stats.Win ++
    " | Lose: " ++ toString stats.Lose ++
    " | " ++ change_str

/-- Embedding of `_process_elo` (src/BotTwitch.py:496-516): fetch stats,
compute the daily delta from the CURRENT file, persist the new snapshot
only when the fetched elo is > 0, send one reply, then set
`last_elo_time`.  Inputs: the fetched stats (the two HTTP oracles already
applied), the current instant both as a timestamp string and as wall-clock
time `tnow`, and the store/dispatcher state.  Returns the new file, the
new `last_elo_time`, and the trace of actions in program order. -/
def process_elo (username : String) (stats : FStats) (now_ts : String)
    (dateOf : String → Int) (today : Int) (tnow : ℚ)
    (file : Option (List EloRecord)) :
    Option (List EloRecord) × ℚ × List ProcEvent :=
  let daily_change := get_daily_elo_change dateOf today file
  let file2 := if stats.Elo > 0 then save_elo_record now_ts stats.Elo file else file
  let response := format_reply username stats daily_change
  (file2, tnow,
    [ProcEvent.fetchStats, ProcEvent.computeDelta daily_change] ++
      (if stats.Elo > 0 then [ProcEvent.persistRec stats.Elo] else []) ++
      [ProcEvent.sendReply response, ProcEvent.updateTime tnow])

/-- The background task exactly as the claim orders it: the snapshot is
persisted first and the daily delta is computed AFTERWARDS, from the
updated file.  Written from the spec's words, to be compared with
`process_elo`. -/
def process_elo_claimed (username : String) (stats : FStats) (now_ts : String)
    (dateOf : String → Int) (today : Int) (tnow : ℚ)
    (file : Option (List EloRecord)) :
    Option (List EloRecord) × ℚ × List ProcEvent :=
  let file2 := if stats.Elo > 0 then save_elo_record now_ts stats.Elo file else file
  let daily_change := get_daily_elo_change dateOf today file2
  let response := format_reply username stats daily_change
  (file2, tnow,
    [ProcEvent.fetchStats] ++
      (if stats.Elo > 0 then [ProcEvent.persistRec stats.Elo] else []) ++
      [ProcEvent.computeDelta daily_change,
        ProcEvent.sendReply response, ProcEvent.updateTime tnow])

/-! ## Daily reset scheduler (src/BotTwitch.py:131-145)

A local instant is a calendar day index together with the second-of-day
(rational, to carry sub-second precision) in the configured timezone. -/

/-- A timezone-local instant: day number and seconds since local midnight. -/
structure LocalTime where
  day : Int
  sec : ℚ
deriving DecidableEq, Repr

/-- 04:00:00.000000 as seconds since midnight: the firing wall-clock time. -/
def reset_sec : ℚ := 14400

/-- Embedding of the instant computation of `schedule_daily_reset`
(src/BotTwitch.py:133-136): `now.replace(hour=4, minute=0, second=0,
microsecond=0)`, pushed to tomorrow when `now` has already reached it. -/
def next_reset (now : LocalTime) : LocalTime :=
  let candidate : LocalTime := { day := now.day, sec := reset_sec }
  if now.sec ≥ candidate.sec then { day := now.day + 1, sec := reset_sec }
  else candidate

/-- An instant as absolute seconds, for delay arithmetic. -/
def localSeconds (t : LocalTime) : ℚ := 86400 * t.day + t.sec

/-- The armed delay `(next_reset - now).total_seconds()`
(src/BotTwitch.py:138). -/
def reset_delay (now : LocalTime) : ℚ :=
  localSeconds (next_reset now) - localSeconds now

/-- Embedding of `_daily_reset_callback` (src/BotTwitch.py:142-145): on
firing, reset the daily stats, then re-arm the timer with the delay
computed from the current instant.  Returns the new file content and the
newly armed delay. -/
def daily_reset_callback (now_ts : String) (now : LocalTime)
    (file : Option (List EloRecord)) : Option (List EloRecord) × ℚ :=
  (reset_daily_stats now_ts file, reset_delay now)

/-! # Theorems -/

/-- Helper: encoding then decoding one record is the identity. -/
theorem decode_encode_record (r : EloRecord) :
    decode_record (encode_record r) = some r := rfl

/-- C8: writing any ordered sequence of rating snapshots in the persisted
JSON-array format (elements with an integer "elo" and a string
"timestamp") and reading it back yields an equal sequence: same length,
same order, same rating and timestamp values. -/
theorem save_load_roundtrip (h : List EloRecord) :
    decode_history (encode_history h) = some h := by
  have key : ∀ l : List EloRecord, decode_records (l.map encode_record) = some l := by
    intro l
    induction l with
    | nil => rfl
    | cons r t ih => simp [decode_records, decode_encode_record, ih]
  simpa [encode_history, decode_history] using key h

/-- C10: `reset_for_new_day` on a file holding the empty list writes a
single seed record with the sentinel rating 0 and the current instant,
and on an absent file writes nothing and creates no file. -/
theorem reset_daily_stats_empty_and_absent (now_ts : String) :
    reset_daily_stats now_ts (some []) =
      some [{ elo := 0, timestamp := now_ts }] ∧
    reset_daily_stats now_ts none = none :=
  ⟨rfl, rfl⟩

/-- C7: on any non-empty history, `reset_for_new_day` replaces the whole
history with exactly one snapshot carrying the last snapshot's rating and
the current instant, and `compute_daily_delta` invoked immediately
afterwards (so the new timestamp's date is still today) returns 0. -/
theorem reset_then_delta_zero (dateOf : String → Int) (today : Int)
    (now_ts : String) (history : List EloRecord) (e : EloRecord)
    (hlast : history.getLast? = some e) (hdate : dateOf now_ts = today) :
    reset_daily_stats now_ts (some history) =
      some [{ elo := e.elo, timestamp := now_ts }] ∧
    get_daily_elo_change dateOf today
      (reset_daily_stats now_ts (some history)) = 0 := by
  have h1 : reset_daily_stats now_ts (some history) =
      some [{ elo := e.elo, timestamp := now_ts }] := by
    simp [reset_daily_stats, hlast]
  refine ⟨h1, ?_⟩
  rw [h1]
  by_cases hz : e.elo = 0 <;>
    simp [get_daily_elo_change, hdate, List.dropWhile, hz]

/-- Witness for C7 at a concrete input. -/
theorem reset_then_delta_zero_witness :
    reset_daily_stats "t9" (some [⟨1480, "t0"⟩, ⟨1500, "t1"⟩]) =
      some [{ elo := 1500, timestamp := "t9" }] ∧
    get_daily_elo_change (fun _ => 7) 7
      (reset_daily_stats "t9" (some [⟨1480, "t0"⟩, ⟨1500, "t1"⟩])) = 0 :=
  reset_then_delta_zero (fun _ => 7) 7 "t9" [⟨1480, "t0"⟩, ⟨1500, "t1"⟩]
    ⟨1500, "t1"⟩ rfl rfl

/-- C1 counterexample: the claim says EVERY sentinel-0 snapshot is
excluded before diffing, so on a same-day history `[1500, 0]` only one
snapshot would qualify and the delta would be 0; the code only strips the
LEADING zero run, keeps both records, and returns `0 − 1500 = −1500`. -/
theorem daily_delta_not_excluding_all_zeros :
    get_daily_elo_change (fun _ => 0) 0
      (some [⟨1500, "a"⟩, ⟨0, "b"⟩]) = -1500 ∧
    daily_delta_claimed (fun _ => 0) 0
      (some [⟨1500, "a"⟩, ⟨0, "b"⟩]) = 0 ∧
    get_daily_elo_change (fun _ => 0) 0
      (some [⟨1500, "a"⟩, ⟨0, "b"⟩]) ≠
      daily_delta_claimed (fun _ => 0) 0 (some [⟨1500, "a"⟩, ⟨0, "b"⟩]) :=
  ⟨rfl, rfl, by decide⟩

/-- C1 (amended): over the snapshots whose date is the current day, after
excluding the LEADING run of sentinel-0 snapshots (zero-rating snapshots
after a qualifying one are retained), `compute_daily_delta` returns
`latest − first`, and returns 0 whenever fewer than two records remain. -/
theorem daily_delta_latest_minus_first (dateOf : String → Int) (today : Int)
    (history : List EloRecord) :
    (∀ a b, (qualifying_records dateOf today history).head? = some a →
      (qualifying_records dateOf today history).getLast? = some b →
      2 ≤ (qualifying_records dateOf today history).length →
      get_daily_elo_change dateOf today (some history) = b.elo - a.elo) ∧
    ((qualifying_records dateOf today history).length < 2 →
      get_daily_elo_change dateOf today (some history) = 0) := by
  constructor
  · intro a b ha hb hlen
    match hhist : history with
    | [] => simp [qualifying_records] at ha
    | x :: xs =>
      show get_daily_elo_change dateOf today (some (x :: xs)) = b.elo - a.elo
      rw [get_daily_elo_change]
      have hne : ¬ (x :: xs).isEmpty = true := by simp
      rw [if_neg hne, if_neg (by
        simpa [qualifying_records] using not_lt.mpr hlen)]
      have hq : ((x :: xs).filter (fun e => dateOf e.timestamp == today)).dropWhile
          (fun e => e.elo == 0) = qualifying_records dateOf today (x :: xs) := rfl
      rw [hq, List.getLastD_eq_getLast?, List.headD_eq_head?]
      simp only [ha, hb, Option.getD_some]
  · intro hlen
    match hhist : history with
    | [] => rfl
    | x :: xs =>
      rw [get_daily_elo_change]
      have hne : ¬ (x :: xs).isEmpty = true := by simp
      rw [if_neg hne, if_pos (by simpa [qualifying_records] using hlen)]

/-- Witness for the amended C1 at a concrete input: the seed 0 is
dropped, then `1520 − 1500 = 20`. -/
theorem daily_delta_latest_minus_first_witness :
    get_daily_elo_change (fun _ => 3) 3
      (some [⟨0, "s"⟩, ⟨1500, "a"⟩, ⟨1520, "b"⟩]) = 1520 - 1500 :=
  (daily_delta_latest_minus_first (fun _ => 3) 3
      [⟨0, "s"⟩, ⟨1500, "a"⟩, ⟨1520, "b"⟩]).1
    ⟨1500, "a"⟩ ⟨1520, "b"⟩ rfl rfl (by decide)

/-- Helper: when every faction key is non-empty, the roster scan of
`_analyze_match` finds exactly the first team containing the player. -/
theorem scan_teams_eq_find_faction (pid : String)
    (teams : List (String × List String)) (hfac : ∀ p ∈ teams, p.1 ≠ "") :
    scan_teams pid teams none = find_faction pid teams := by
  induction teams with
  | nil => rfl
  | cons t rest ih =>
    have ht : t.1 ≠ "" := hfac t (List.mem_cons_self t rest)
    have ih2 := ih (fun p hp => hfac p (List.mem_cons_of_mem t hp))
    obtain ⟨f, team⟩ := t
    simp only [ne_eq] at ht
    cases hmem : team.contains pid with
    | true =>
      simp only [scan_teams, hmem, if_true, truthyStr, find_faction,
        List.find?_cons]
      simp [ht]
    | false =>
      simp only [scan_teams, hmem, if_false, truthyStr, find_faction,
        List.find?_cons]
      simpa [find_faction] using ih2

/-- Helper: a faction returned by `find_faction` is one of the team keys. -/
theorem find_faction_mem (pid : String) (teams : List (String × List String))
    (f : String) (h : find_faction pid teams = some f) :
    ∃ p ∈ teams, p.1 = f := by
  unfold find_faction at h
  match hfind : teams.find? (fun t => t.2.contains pid) with
  | none => rw [hfind] at h; simp at h
  | some t =>
    rw [hfind] at h
    simp at h
    exact ⟨t, List.mem_of_find?_eq_some hfind, h⟩

/-- C3: for every match record returned by the remote history endpoint
(which uses non-empty faction keys and a non-empty declared winner when
one exists): not-finished status, a player id absent from every roster,
or an absent winner each yield "unknown"; otherwise the outcome is "win"
exactly when the player's faction equals the winner and "loss"
otherwise; and an "unknown" outcome increments neither counter of the
daily-match count. -/
theorem analyze_match_classification (m : MatchRecord) (pid : String)
    (hfac : ∀ p ∈ m.teams, p.1 ≠ "") (hwin : m.winner ≠ some "") :
    (m.status ≠ "finished" → analyze_match m pid = "unknown") ∧
    (find_faction pid m.teams = none → analyze_match m pid = "unknown") ∧
    (m.winner = none → analyze_match m pid = "unknown") ∧
    (∀ f w, m.status = "finished" → find_faction pid m.teams = some f →
      m.winner = some w →
      analyze_match m pid = (if f = w then "win" else "loss")) ∧
    (∀ ms, analyze_match m pid = "unknown" →
      count_matches pid (m :: ms) = count_matches pid ms) := by
  refine ⟨?_, ?_, ?_, ?_, ?_⟩
  · intro hst
    simp [analyze_match, hst]
  · intro hnone
    by_cases hst : m.status = "finished"
    · have hscan := scan_teams_eq_find_faction pid m.teams hfac
      simp [analyze_match, hst, hscan, hnone, truthyStr]
    · simp [analyze_match, hst]
  · intro hwnone
    by_cases hst : m.status = "finished"
    · by_cases htr : truthyStr (scan_teams pid m.teams none)
      · simp [analyze_match, hst, htr, hwnone, truthyStr]
      · simp [analyze_match, hst, htr]
    · simp [analyze_match, hst]
  · intro f w hst hfind hw
    have hscan := scan_teams_eq_find_faction pid m.teams hfac
    have hf : f ≠ "" := by
      obtain ⟨p, hp, hpf⟩ := find_faction_mem pid m.teams f hfind
      exact hpf ▸ hfac p hp
    have hwne : w ≠ "" := by
      intro hcontra
      exact hwin (hcontra ▸ hw)
    by_cases hfw : f = w
    · simp [analyze_match, hst, hscan, hfind, hw, truthyStr, hf, hwne, hfw]
    · simp [analyze_match, hst, hscan, hfind, hw, truthyStr, hf, hwne, hfw]
  · intro ms hunk
    simp [count_matches, List.foldl_cons, hunk]

/-- Witness for C3 at concrete inputs: a finished match whose winner is
the player's faction is a "win", and an unfinished match changes no
counter. -/
theorem analyze_match_classification_witness :
    analyze_match ⟨"finished", [("faction1", ["p1"])], some "faction1"⟩ "p1" =
      (if "faction1" = "faction1" then "win" else "loss") ∧
    count_matches "p1"
        (⟨"ongoing", [("faction1", ["p1"])], some "faction1"⟩ ::
          ([] : List MatchRecord)) =
      count_matches "p1" [] := by
  constructor
  · exact (analyze_match_classification
      ⟨"finished", [("faction1", ["p1"])], some "faction1"⟩ "p1"
      (by decide) (by decide)).2.2.2.1 "faction1" "faction1" rfl rfl rfl
  · exact (analyze_match_classification
      ⟨"ongoing", [("faction1", ["p1"])], some "faction1"⟩ "p1"
      (by decide) (by decide)).2.2.2.2 [] rfl

/-- C4: a rating-query dispatch that passes both gates spawns one
background task; after that task completes at instant `c`, a second
dispatch arriving less than the 5-second cooldown after `c` spawns
nothing: it is dropped with no change to the dispatcher state, so the
pair spawns exactly one task. -/
theorem cooldown_drops_second_dispatch (s0 : DispatchState) (t1 c t2 : ℚ)
    (hcool : elo_cooldown ≤ t1 - s0.last_elo_time) (hidle : s0.inFlight = 0)
    (hfast : t2 - c < elo_cooldown) :
    (handle_elo_command t1 s0).1 = true ∧
    (handle_elo_command t2 (complete_elo c (handle_elo_command t1 s0).2)).1 =
      false ∧
    (handle_elo_command t2 (complete_elo c (handle_elo_command t1 s0).2)).2 =
      complete_elo c (handle_elo_command t1 s0).2 := by
  have h1 : handle_elo_command t1 s0 =
      (true, { s0 with inFlight := s0.inFlight + 1 }) := by
    rw [handle_elo_command, if_neg (not_lt.mpr hcool), if_neg (by simp [hidle])]
  have h2 : handle_elo_command t2
      (complete_elo c (handle_elo_command t1 s0).2) =
      (false, complete_elo c (handle_elo_command t1 s0).2) := by
    rw [handle_elo_command, if_pos]
    simp [h1, complete_elo, hfast]
  exact ⟨by rw [h1], by rw [h2], by rw [h2]⟩

/-- Witness for C4 at concrete instants 10, 12, 14 from the startup
state. -/
theorem cooldown_drops_second_dispatch_witness :
    (handle_elo_command 10 initDispatchState).1 = true ∧
    (handle_elo_command 14
      (complete_elo 12 (handle_elo_command 10 initDispatchState).2)).1 =
      false ∧
    (handle_elo_command 14
      (complete_elo 12 (handle_elo_command 10 initDispatchState).2)).2 =
      complete_elo 12 (handle_elo_command 10 initDispatchState).2 :=
  cooldown_drops_second_dispatch initDispatchState 10 12 14
    (by norm_num [elo_cooldown, initDispatchState])
    rfl (by norm_num [elo_cooldown])

/-- Helper: one dispatcher step never raises the in-flight count above
one. -/
theorem dispatch_step_inFlight_le (s : DispatchState) (e : DispatchEvent)
    (h : s.inFlight ≤ 1) : (dispatch_step s e).inFlight ≤ 1 := by
  match e with
  | .complete t =>
    simp only [dispatch_step, complete_elo]
    omega
  | .dispatch t =>
    simp only [dispatch_step, handle_elo_command]
    by_cases h1 : t - s.last_elo_time < elo_cooldown
    · simpa [h1] using h
    · by_cases h2 : s.inFlight ≠ 0
      · simpa [h1, h2] using h
      · simp only [h1, h2, if_false, ite_false, if_neg, ite_not]
        simp at h2
        simp [h1, h2]

/-- C5: a dispatch arriving while a background task is in flight is
dropped with no spawn and no state change, whatever the elapsed time; and
along every event sequence from startup at most one task is ever in
flight. -/
theorem single_flight_invariant :
    (∀ (t : ℚ) (s : DispatchState), s.inFlight ≠ 0 →
      handle_elo_command t s = (false, s)) ∧
    (∀ es : List DispatchEvent, (dispatch_run es).inFlight ≤ 1) := by
  constructor
  · intro t s hbusy
    rw [handle_elo_command]
    by_cases h1 : t - s.last_elo_time < elo_cooldown
    · simp [h1]
    · simp [h1, hbusy]
  · intro es
    rw [dispatch_run]
    have aux : ∀ (l : List DispatchEvent) (s : DispatchState),
        s.inFlight ≤ 1 → (l.foldl dispatch_step s).inFlight ≤ 1 := by
      intro l
      induction l with
      | nil => intro s hs; simpa using hs
      | cons e rest ih =>
        intro s hs
        exact ih (dispatch_step s e) (dispatch_step_inFlight_le s e hs)
    exact aux es initDispatchState (by simp [initDispatchState])

/-- Witness for C5: a dispatch at instant 100 with one task in flight is
dropped even though the cooldown instant is long past. -/
theorem single_flight_invariant_witness :
    handle_elo_command 100 { last_elo_time := 0, inFlight := 1 } =
      (false, { last_elo_time := 0, inFlight := 1 }) :=
  single_flight_invariant.1 100 { last_elo_time := 0, inFlight := 1 }
    (by decide)

/-- C6: every enumerated failure of the remote stats fetch — a raised
network error or timeout, a non-success status, a body that fails to
decode, or a missing player id — makes `get_faceit_stats` return the
well-defined zero result `{Elo: 0, Win: 0, Lose: 0}` as a normal value
(the embedding is a total function: every exception path of the source
ends in a handler returning this value). -/
theorem get_faceit_stats_failure_is_empty (presp : HttpOutcome PlayerBody)
    (mresp : HttpOutcome (List MatchRecord))
    (hfail : presp = .netErr ∨
      (∃ st b, presp = .reply st b ∧ st ≠ 200) ∨
      (∃ st, presp = .reply st none) ∨
      (∃ st b, presp = .reply st (some b) ∧ truthyStr b.player_id = false)) :
    get_faceit_stats presp mresp = get_empty_stats := by
  rcases hfail with h | ⟨st, b, h, hst⟩ | ⟨st, h⟩ | ⟨st, b, h, hpid⟩
  · simp [h, get_faceit_stats]
  · simp [h, get_faceit_stats, hst]
  · subst h
    by_cases hst : st = 200
    · simp [get_faceit_stats, hst]
    · simp [get_faceit_stats, hst]
  · subst h
    by_cases hst : st = 200
    · simp [get_faceit_stats, hst, hpid]
    · simp [get_faceit_stats, hst]

/-- Witness for C6: a network error on the player request yields the
zero result whatever the match-history response would have been. -/
theorem get_faceit_stats_failure_is_empty_witness :
    get_faceit_stats .netErr
        (.reply 200 (some [⟨"finished", [("faction1", ["p1"])], some "faction1"⟩])) =
      get_empty_stats :=
  get_faceit_stats_failure_is_empty .netErr
    (.reply 200 (some [⟨"finished", [("faction1", ["p1"])], some "faction1"⟩]))
    (Or.inl rfl)

/-- C2 counterexample: the claim orders the background task as
fetch, persist, THEN compute the daily delta; the code computes the delta
first (`daily_change = self.get_daily_elo_change()` precedes
`save_elo_record`, src/BotTwitch.py:498-502).  With today's history
`[1500]` and a fetched rating of 1520, the code's trace computes the
delta (0, over the pre-persist file) before persisting and replies
"... | 0", while the claimed order would compute 20 after persisting and
reply "... | +20". -/
theorem process_elo_delta_before_persist :
    (process_elo "u" ⟨1520, 3, 1⟩ "t2" (fun _ => 0) 0 100
        (some [⟨1500, "t1"⟩])).2.2 =
      [ProcEvent.fetchStats, ProcEvent.computeDelta 0,
        ProcEvent.persistRec 1520,
        ProcEvent.sendReply "@u → Elo: 1520 | Win: 3 | Lose: 1 | 0",
        ProcEvent.updateTime 100] ∧
    (process_elo_claimed "u" ⟨1520, 3, 1⟩ "t2" (fun _ => 0) 0 100
        (some [⟨1500, "t1"⟩])).2.2 =
      [ProcEvent.fetchStats, ProcEvent.persistRec 1520,
        ProcEvent.computeDelta 20,
        ProcEvent.sendReply "@u → Elo: 1520 | Win: 3 | Lose: 1 | +20",
        ProcEvent.updateTime 100] ∧
    (process_elo "u" ⟨1520, 3, 1⟩ "t2" (fun _ => 0) 0 100
        (some [⟨1500, "t1"⟩])).2.2 ≠
      (process_elo_claimed "u" ⟨1520, 3, 1⟩ "t2" (fun _ => 0) 0 100
        (some [⟨1500, "t1"⟩])).2.2 :=
  ⟨rfl, rfl, by decide⟩

/-- C2 (amended): the spawned background task performs, in order: fetch
rating and match counts; compute the daily delta FROM THE FILE AS IT WAS
BEFORE THIS DISPATCH; persist a new snapshot if and only if the fetched
rating is > 0; send a single reply line carrying that delta; and only
then update the last-dispatch timestamp. -/
theorem process_elo_order_and_effects (username : String) (stats : FStats)
    (now_ts : String) (dateOf : String → Int) (today : Int) (tnow : ℚ)
    (file : Option (List EloRecord)) :
    (process_elo username stats now_ts dateOf today tnow file).1 =
      (if stats.Elo > 0 then save_elo_record now_ts stats.Elo file
        else file) ∧
    (ProcEvent.persistRec stats.Elo ∈
        (process_elo username stats now_ts dateOf today tnow file).2.2 ↔
      0 < stats.Elo) ∧
    (process_elo username stats now_ts dateOf today tnow file).2.1 = tnow ∧
    (process_elo username stats now_ts dateOf today tnow file).2.2 =
      [ProcEvent.fetchStats,
        ProcEvent.computeDelta (get_daily_elo_change dateOf today file)] ++
      (if stats.Elo > 0 then [ProcEvent.persistRec stats.Elo] else []) ++
      [ProcEvent.sendReply (format_reply username stats
          (get_daily_elo_change dateOf today file)),
        ProcEvent.updateTime tnow] := by
  refine ⟨rfl, ?_, rfl, rfl⟩
  by_cases hpos : 0 < stats.Elo
  · simp [process_elo, hpos]
  · simp [process_elo, hpos]

/-- C9: the daily-reset scheduler targets today's 04:00 local wall-clock
instant when it has not yet been reached, tomorrow's otherwise; the armed
delay is the target minus now and is strictly positive; and the timer
callback resets the daily stats and re-arms with the delay computed at
firing time. -/
theorem daily_reset_schedule (now : LocalTime) (now_ts : String)
    (file : Option (List EloRecord))
    (_h0 : 0 ≤ now.sec) (h1 : now.sec < 86400) :
    (now.sec < reset_sec →
      next_reset now = { day := now.day, sec := reset_sec }) ∧
    (reset_sec ≤ now.sec →
      next_reset now = { day := now.day + 1, sec := reset_sec }) ∧
    reset_delay now = localSeconds (next_reset now) - localSeconds now ∧
    0 < reset_delay now ∧
    daily_reset_callback now_ts now file =
      (reset_daily_stats now_ts file, reset_delay now) := by
  refine ⟨?_, ?_, rfl, ?_, rfl⟩
  · intro hlt
    simp [next_reset, not_le.mpr hlt]
  · intro hge
    simp [next_reset, hge]
  · by_cases hge : reset_sec ≤ now.sec
    · have : next_reset now = { day := now.day + 1, sec := reset_sec } := by
        simp [next_reset, hge]
      rw [reset_delay, this]
      simp only [localSeconds, reset_sec]
      push_cast
      linarith
    · have hlt := not_le.mp hge
      have : next_reset now = { day := now.day, sec := reset_sec } := by
        simp [next_reset, not_le.mpr hlt]
      rw [reset_delay, this]
      simp only [localSeconds, reset_sec] at *
      linarith

/-- Witness for C9 at local midnight (day 0, second 0): the timer targets
today's 04:00 and the delay is positive. -/
theorem daily_reset_schedule_witness :
    next_reset { day := 0, sec := 0 } = { day := 0, sec := reset_sec } ∧
    0 < reset_delay { day := 0, sec := 0 } ∧
    daily_reset_callback "t0" { day := 0, sec := 0 } (some []) =
      (reset_daily_stats "t0" (some []),
        reset_delay { day := 0, sec := 0 }) := by
  have h := daily_reset_schedule { day := 0, sec := 0 } "t0" (some [])
    (le_refl 0) (by norm_num)
  exact ⟨h.1 (by norm_num [reset_sec]), h.2.2.2.1, h.2.2.2.2⟩

end BotTwitch
